import Mathlib

/-!
# Verification of the indian-cuisine-frontend search/list/suggest state machine

Shallow embedding of the client-side state machines of the repository:

* `formatValue` and the URL parameter bag of `src/pages/ListPage.tsx`
  (`updateParam`, the `useMemo` reads, pagination and sort handlers);
* the `Header` suggestion engine (`src/components/Header.tsx`): debounced
  autosuggest effect, the `mounted` liveness flag, `handleSelect`;
* the auth gate (`src/pages/Auth/Login.tsx` `handleLogin`);
* the `DishSuggester` widget (`src/widgets/DishSuggester.tsx` `clearAll`).

JavaScript dynamic values that the embedded functions inspect are modelled by
the sum type `JSVal` (null / undefined / string / integer number); strict
equality `===` is Lean equality on that type, so `-1 === "-1"` is `False`,
exactly as in JavaScript.
-/

set_option autoImplicit false

namespace Cuisine

/-- A JavaScript value as far as the embedded code inspects one:
`null`, `undefined`, a string, or an (integer) number.  The record fields the
list page formats and the values passed to `updateParam` are all of these
shapes. -/
inductive JSVal : Type where
  | null : JSVal
  | undef : JSVal
  | str : String → JSVal
  | num : Int → JSVal
deriving DecidableEq, Repr

/-- `formatValue` from `src/pages/ListPage.tsx`:

```ts
export function formatValue(value: any, fallback: string = "-") {
  if (value === null || value === undefined || value === "" || value === "-1") {
    return fallback;
  }
  return value;
}
```

The four `===` comparisons are strict, so only the *string* `"-1"` (not the
number `-1`) selects the fallback. -/
def formatValue (value : JSVal) (fallback : JSVal := JSVal.str "-") : JSVal :=
  if value = JSVal.null ∨ value = JSVal.undef ∨
      value = JSVal.str "" ∨ value = JSVal.str "-1" then
    fallback
  else
    value

/-! ## Decimal codec: JavaScript `String(n)` and `Number(s)` on integers

`updateParam` stores `String(value)` in the URL and the page reads it back
with `Number(...)`.  We model the decimal rendering of an integer and the
numeric parse of a string; `none` models `NaN`. -/

/-- Value of a decimal digit character, `none` for a non-digit. -/
def digitVal (c : Char) : Option Nat :=
  if '0' ≤ c ∧ c ≤ '9' then some (c.toNat - '0'.toNat) else none

/-- Decimal digit characters of a natural number, most significant first,
with explicit recursion fuel (so the definition is structural and evaluates
inside the kernel); `natChars` supplies enough fuel. -/
def natCharsAux : Nat → Nat → List Char
  | 0, n => [Nat.digitChar (n % 10)]
  | fuel + 1, n =>
    if n < 10 then [Nat.digitChar n]
    else natCharsAux fuel (n / 10) ++ [Nat.digitChar (n % 10)]

/-- Decimal digit characters of a natural number, most significant first
(the digits `String(n)` produces for a natural `n`). -/
def natChars (n : Nat) : List Char :=
  natCharsAux n n

/-- JavaScript `String(v)` for an integer number `v`. -/
def stringOfInt (v : Int) : String :=
  if v < 0 then ("-".data ++ natChars (-v).toNat).asString
  else (natChars v.toNat).asString

/-- Parse a digit list left to right with an accumulator. -/
def parseDigits : List Char → Nat → Option Nat
  | [], acc => some acc
  | c :: cs, acc =>
    match digitVal c with
    | some d => parseDigits cs (acc * 10 + d)
    | none => none

/-- Parse a nonempty all-digit character list as a natural number. -/
def parseNatChars (cs : List Char) : Option Nat :=
  match cs with
  | [] => none
  | _ :: _ => parseDigits cs 0

/-- JavaScript `Number(s)` on the integer-shaped strings this application
writes to the URL: an optional leading minus sign followed by decimal digits;
`none` models `NaN`. -/
def jsNumber (s : String) : Option Int :=
  match s.data with
  | '-' :: cs => (parseNatChars cs).map (fun n => -(Int.ofNat n))
  | cs => (parseNatChars cs).map Int.ofNat

/-- JavaScript `String(v)` on the values `updateParam` receives. -/
def jsString : JSVal → String
  | JSVal.null => "null"
  | JSVal.undef => "undefined"
  | JSVal.str s => s
  | JSVal.num v => stringOfInt v

/-! ## The URL parameter bag of `ListPage`

`src/pages/ListPage.tsx` keeps pagination and filters in the browser URL via
`useSearchParams`.  A `URLSearchParams` object is a sequence of key/value
string pairs; `get` returns the first value for a key (or null), `set`
replaces the key entry, `delete` removes it. -/

/-- The URL search parameter bag (`URLSearchParams`). -/
abbrev Params := List (String × String)

/-- `URLSearchParams.get(k)`: the first value stored under `k`, `none` for
JavaScript's null when the key is absent. -/
def getParam : Params → String → Option String
  | [], _ => none
  | p :: ps, k => if p.1 = k then some p.2 else getParam ps k

/-- `URLSearchParams.delete(k)`: drop every entry under `k`. -/
def deleteParam : Params → String → Params
  | [], _ => []
  | p :: ps, k => if p.1 = k then deleteParam ps k else p :: deleteParam ps k

/-- `URLSearchParams.set(k, v)`: the bag afterwards holds exactly one entry
for `k`, with value `v` (entry order is not observed by any read we model). -/
def setParam (bag : Params) (k v : String) : Params :=
  deleteParam bag k ++ [(k, v)]

/-- `updateParam` from `src/pages/ListPage.tsx`:

```ts
const updateParam = (key: string, value: any) => {
  const newParams = new URLSearchParams(qparams);
  if (value === "" || value == null) {
    newParams.delete(key);
  } else {
    newParams.set(key, String(value));
  }
  setQparams(newParams);
};
```

Loose `value == null` matches both `null` and `undefined`. -/
def updateParam (bag : Params) (key : String) (value : JSVal) : Params :=
  if value = JSVal.str "" ∨ value = JSVal.null ∨ value = JSVal.undef then
    deleteParam bag key
  else
    setParam bag key (jsString value)

/-- A `qparams.get(k) || ""` read (the `origin`, `ingredient`, `q` memos). -/
def readString (bag : Params) (k : String) : String :=
  (getParam bag k).getD ""

/-- A `Number(qparams.get(k) || d)` read (the `page` and `limit` memos);
`none` models `NaN`. -/
def readNum (bag : Params) (k : String) (d : Int) : Option Int :=
  match getParam bag k with
  | none => some d
  | some s => if s = "" then some d else jsNumber s

/-- `page` as `ListPage` reads it from the URL. -/
def pageOf (bag : Params) : Option Int := readNum bag "page" 1

/-- `limit` (page size) as `ListPage` reads it from the URL. -/
def limitOf (bag : Params) : Option Int := readNum bag "limit" 10

/-- `origin` filter as `ListPage` reads it from the URL. -/
def originOf (bag : Params) : String := readString bag "origin"

/-- `ingredient` filter as `ListPage` reads it from the URL. -/
def ingredientOf (bag : Params) : String := readString bag "ingredient"

/-- Free-text `q` as `ListPage` reads it from the URL. -/
def qOf (bag : Params) : String := readString bag "q"

/-- Sort direction of the list page. -/
inductive SortDir : Type where
  | asc : SortDir
  | desc : SortDir
deriving DecidableEq, Repr

/-- `ListPage` component state: the URL bag plus the *local* `useState`
sorting state (`sortBy`, `sortOrder`), which the component does not mirror
into the URL. -/
structure ListState : Type where
  bag : Params
  sortBy : String
  sortOrder : SortDir
deriving DecidableEq, Repr

/-- Initial `ListPage` state: `useState("name")`, `useState("asc")`. -/
def initListState : ListState :=
  { bag := [], sortBy := "name", sortOrder := SortDir.asc }

/-- `toggleSort` from `src/pages/ListPage.tsx`: clicking the active column
flips the direction, clicking another column selects it with ascending
order. -/
def toggleSort (st : ListState) (col : String) : ListState :=
  if st.sortBy = col then
    { st with sortOrder :=
        if st.sortOrder = SortDir.asc then SortDir.desc else SortDir.asc }
  else
    { st with sortBy := col, sortOrder := SortDir.asc }

/-- `updateParam` acting on the component state (the bag is the only part it
touches). -/
def setUrlParam (st : ListState) (key : String) (value : JSVal) : ListState :=
  { st with bag := updateParam st.bag key value }

/-- The `Prev` button: `updateParam("page", Math.max(1, page - 1))`.
`Math.max(1, NaN)` is `NaN` and `String(NaN)` is `"NaN"`. -/
def prevPage (st : ListState) : ListState :=
  match pageOf st.bag with
  | some p => setUrlParam st "page" (JSVal.num (max 1 (p - 1)))
  | none => setUrlParam st "page" (JSVal.str "NaN")

/-- The `Next` button: `updateParam("page", page + 1)`. -/
def nextPage (st : ListState) : ListState :=
  match pageOf st.bag with
  | some p => setUrlParam st "page" (JSVal.num (p + 1))
  | none => setUrlParam st "page" (JSVal.str "NaN")

/-- The page-size input: `updateParam("limit", Number(e.target.value || 10))`.
An empty input falls back to 10; any other text goes through `Number`. -/
def setLimitInput (st : ListState) (text : String) : ListState :=
  match (if text = "" then some (10 : Int) else jsNumber text) with
  | some v => setUrlParam st "limit" (JSVal.num v)
  | none => setUrlParam st "limit" (JSVal.str "NaN")

/-- The argument record `ListPage` passes to `fetchDishes` on every fetch:
the five URL-backed memo reads plus the two local sort fields. -/
structure FetchArgs : Type where
  page : Option Int
  limit : Option Int
  origin : String
  ingredient : String
  q : String
  sortBy : String
  sortOrder : SortDir
deriving DecidableEq, Repr

/-- The fetch effect of `ListPage` builds its request from the current memo
reads of the URL bag and the local sorting state. -/
def fetchArgs (st : ListState) : FetchArgs :=
  { page := pageOf st.bag
    limit := limitOf st.bag
    origin := originOf st.bag
    ingredient := ingredientOf st.bag
    q := qOf st.bag
    sortBy := st.sortBy
    sortOrder := st.sortOrder }

/-! ## The `Header` suggestion engine

`src/components/Header.tsx` keeps `q` (query text), `by` (search dimension),
`suggests` and `menuOpen` in React state.  A `useEffect` with dependencies
`[q, by]` schedules `doFetch` behind a 250 ms `setTimeout`; its cleanup runs
whenever `q` or `by` changes (and on unmount), setting the closure-local
`mounted` flag of that effect instance to `false` and `clearTimeout`-ing the
pending timer.

We model each effect instance by an `epoch` counter: the current epoch is the
one whose `mounted` flag is still `true`; bumping the epoch is exactly running
the previous effect's cleanup.  Real time is abstracted away: the event
`timerFire` is enabled precisely while a debounce timer is pending (250 ms
passed with no further update), and each `setQuery`/`setDim` replaces the
timer (`clearTimeout` + new `setTimeout`, a restart). -/

/-- The search dimension (`by` in the source): name, ingredient, origin or
state. -/
inductive Dimension : Type where
  | name : Dimension
  | ingredient : Dimension
  | origin : Dimension
  | state : Dimension
deriving DecidableEq, Repr

/-- The URL key `handleSelect` uses for a dimension: `params.set(by, ...)`
uses the dimension literal itself. -/
def dimKey : Dimension → String
  | Dimension.name => "name"
  | Dimension.ingredient => "ingredient"
  | Dimension.origin => "origin"
  | Dimension.state => "state"

/-- A suggestion item as the API returns it: either a bare string or an
object with an optional `id` and a `name`. -/
inductive Suggestion : Type where
  | strval : String → Suggestion
  | obj : Option String → String → Suggestion
deriving DecidableEq, Repr

/-- JavaScript truthiness of `s.id`: a string `s` has no `id` property
(undefined, falsy); an object's `id` is truthy iff present and nonempty. -/
def truthyId : Suggestion → Bool
  | Suggestion.obj (some i) _ => i != ""
  | _ => false

/-- The `id` of a suggestion whose `id` is truthy. -/
def idString : Suggestion → String
  | Suggestion.obj (some i) _ => i
  | _ => ""

/-- JavaScript `String(s)` applied to a suggestion value. -/
def suggString : Suggestion → String
  | Suggestion.strval s => s
  | Suggestion.obj _ _ => "[object Object]"

/-- An issued autosuggest request: the effect instance (`epoch`) whose
`mounted` flag guards its continuation, and the query/dimension it was
issued for. -/
structure FetchReq : Type where
  epoch : Nat
  q : String
  dim : Dimension
deriving DecidableEq, Repr

/-- A navigation performed by `handleSelect`: either the detail route
`/dishes/:id` or the list route `/?<params>`. -/
inductive Route : Type where
  | detail : String → Route
  | list : Params → Route
deriving DecidableEq, Repr

/-- The `Header` component state together with the scheduler bookkeeping of
its asynchronous parts. -/
structure HeaderState : Type where
  /-- `q`: the query text. -/
  q : String
  /-- `by`: the search dimension (renamed, `by` is a Lean keyword). -/
  dim : Dimension
  /-- `suggests`: the suggestion set. -/
  suggests : List Suggestion
  /-- `menuOpen`: whether the suggestion panel is open. -/
  menuOpen : Bool
  /-- Index of the current (mounted) effect instance. -/
  epoch : Nat
  /-- The pending debounce timer, if any. -/
  timer : Option FetchReq
  /-- In-flight autosuggest fetches, oldest first. -/
  pending : List FetchReq
  /-- Navigations performed so far, oldest first. -/
  nav : List Route
deriving DecidableEq, Repr

/-- State after mount: empty query, dimension defaulting to `"name"`, and the
mount run of the effect has scheduled the (vacuous) debounce timer. -/
def initHeader : HeaderState :=
  { q := ""
    dim := Dimension.name
    suggests := []
    menuOpen := false
    epoch := 0
    timer := some { epoch := 0, q := "", dim := Dimension.name }
    pending := []
    nav := [] }

/-- The events the `Header` state machine reacts to. -/
inductive HEvent : Type where
  /-- A keystroke: `setQ(text)`. -/
  | setQuery : String → HEvent
  /-- Dimension dropdown: `setBy(value)`. -/
  | setDim : Dimension → HEvent
  /-- The 250 ms debounce timer fires and `doFetch` runs. -/
  | timerFire : HEvent
  /-- An in-flight fetch (at the given `pending` index) resolves with the
  given suggestion list (`r.data || []`). -/
  | resolve : Nat → List Suggestion → HEvent
  /-- An in-flight fetch (at the given `pending` index) rejects. -/
  | fail : Nat → HEvent
  /-- The user clicks suggestion `s`: `handleSelect(s)`. -/
  | select : Suggestion → HEvent
  /-- A pointer interaction outside the search box. -/
  | clickOutside : HEvent

/-- Re-run of the `[q, by]` effect after one of its dependencies changed:
the cleanup of the previous instance runs (`mounted = false`, i.e. the epoch
is bumped, and `clearTimeout` drops the timer), then the new instance
schedules `doFetch` behind a fresh 250 ms timer. -/
def rerunEffect (s : HeaderState) : HeaderState :=
  { s with
    epoch := s.epoch + 1
    timer := some { epoch := s.epoch + 1, q := s.q, dim := s.dim } }

/-- The bag `handleSelect` builds for a no-id selection:
`new URLSearchParams(); params.set(by, String(s))`. -/
def selectBag (d : Dimension) (sug : Suggestion) : Params :=
  setParam [] (dimKey d) (suggString sug)

/-- The navigation `handleSelect` performs: `/dishes/:id` when `s.id` is
truthy, otherwise the list route with the single parameter
`by = String(s)`. -/
def selRoute (d : Dimension) (sug : Suggestion) : Route :=
  if truthyId sug then Route.detail (idString sug)
  else Route.list (selectBag d sug)

/-- One step of the `Header` state machine. -/
def hstep (s : HeaderState) : HEvent → HeaderState
  | HEvent.setQuery txt =>
    -- `setQ(txt)`; React re-renders and re-runs the effect only if the
    -- value actually changed.
    if txt = s.q then s else rerunEffect { s with q := txt }
  | HEvent.setDim d =>
    if d = s.dim then s else rerunEffect { s with dim := d }
  | HEvent.timerFire =>
    match s.timer with
    | none => s
    | some t =>
      -- `doFetch` runs: with an empty query it clears synchronously and
      -- returns; otherwise it issues the autosuggest request.
      if t.q = "" then
        { s with timer := none, suggests := [], menuOpen := false }
      else
        { s with timer := none, pending := s.pending ++ [t] }
  | HEvent.resolve i res =>
    match s.pending.get? i with
    | none => s
    | some f =>
      -- `await autosuggest(...)` returned; the continuation applies the
      -- result only if this effect instance is still mounted.
      if f.epoch = s.epoch then
        { s with
          pending := s.pending.eraseIdx i
          suggests := res
          menuOpen := decide (0 < res.length) }
      else
        { s with pending := s.pending.eraseIdx i }
  | HEvent.fail i =>
    -- `catch (e) { console.error(...) }`: the rejection is logged and
    -- swallowed; no state is touched.
    { s with pending := s.pending.eraseIdx i }
  | HEvent.select sug =>
    -- `handleSelect(s)`: navigate, close the panel, clear the suggestions.
    let s1 := { s with
      nav := s.nav ++ [selRoute s.dim sug]
      menuOpen := false
      suggests := [] }
    -- `setQ('')` re-runs the effect iff the query was nonempty.
    if s.q = "" then s1 else rerunEffect { s1 with q := "" }
  | HEvent.clickOutside =>
    { s with menuOpen := false }

/-- Run a list of events from a state. -/
def hrun (s : HeaderState) (evs : List HEvent) : HeaderState :=
  evs.foldl hstep s

/-- Scheduler invariant of the `Header` machine, maintained by every event
from the mount state:

* a pending debounce timer always belongs to the current effect instance and
  captured the current query and dimension (the cleanup cancels it whenever
  they change);
* an in-flight fetch belongs to some already-started instance, was issued
  for a nonempty query, and if its instance is still the mounted one, its
  query and dimension are the current ones;
* once the empty query's debounce has settled (no timer pending), the
  suggestion set is empty and the panel closed. -/
def HInv (s : HeaderState) : Prop :=
  (∀ t, s.timer = some t → t.epoch = s.epoch ∧ t.q = s.q ∧ t.dim = s.dim) ∧
  (∀ f ∈ s.pending, f.epoch ≤ s.epoch ∧ f.q ≠ "" ∧
    (f.epoch = s.epoch → f.q = s.q ∧ f.dim = s.dim)) ∧
  (s.q = "" → s.timer = none → s.suggests = [] ∧ s.menuOpen = false)


/-! ## The auth gate (`Login.tsx` over the localStorage credential store) -/

/-- An entry of the `users` credential list (interface `User` of
`AuthForm.tsx`). -/
structure AuthUser : Type where
  email : String
  password : String
deriving DecidableEq, Repr

/-- The persisted session state: the localStorage keys `login` (session
marker string), `user` (the stored identity, kept as the email inside the
`{ email }` JSON object) and `users` (the parsed credential list). -/
structure AuthStore : Type where
  login : Option String
  user : Option String
  users : List AuthUser
deriving DecidableEq, Repr

/-- What `handleLogin` does besides storage: navigate, or display an error
string. -/
inductive LoginOutcome : Type where
  | navigate : String → LoginOutcome
  | errorMsg : String → LoginOutcome
deriving DecidableEq, Repr

/-- `handleLogin` from `src/pages/Auth/Login.tsx`:

```ts
const users: User[] = JSON.parse(localStorage.getItem("users") || "[]");
const found = users.find((u) => u.email === email && u.password === password);
if (!found) { setError("Invalid credentials"); return; }
localStorage.setItem("user", JSON.stringify({ email }));
localStorage.setItem("login", "true");
navigate("/dishes");
```

(The `catch` wrapper only fires on malformed persisted JSON, which the
structured `AuthStore` rules out.) -/
def handleLogin (email password : String) (st : AuthStore) :
    LoginOutcome × AuthStore :=
  match st.users.find? (fun u => u.email == email && u.password == password) with
  | none => (LoginOutcome.errorMsg "Invalid credentials", st)
  | some _ =>
    (LoginOutcome.navigate "/dishes",
     { st with user := some email, login := some "true" })

/-! ## The `DishSuggester` widget -/

/-- The match mode of the recommender (`"all" | "some"`). -/
inductive MatchKind : Type where
  | all : MatchKind
  | some : MatchKind
deriving DecidableEq, Repr

/-- `DishSuggester` state (`src/widgets/DishSuggester.tsx`): the loaded
ingredient candidates, the selection, the local search text, the result list
(dish records, opaque here) and the match mode. -/
structure SuggesterState : Type where
  options : List String
  selected : List String
  search : String
  results : List JSVal
  matchType : MatchKind
deriving Repr

/-- `clearAll` from `DishSuggester`:

```ts
const clearAll = () => { setSelected([]); setResults([]); setSearch(''); };
```

All three setters run in one synchronous handler (one React batch), so the
reset is a single atomic step of the model. -/
def clearAll (st : SuggesterState) : SuggesterState :=
  { st with selected := [], results := [], search := "" }

/-- Spec-side characterisation of a missing/empty field value: null,
undefined, the empty string, or the string sentinel. -/
def isMissingField (v : JSVal) : Prop :=
  v = JSVal.null ∨ v = JSVal.undef ∨ v = JSVal.str "" ∨ v = JSVal.str "-1"

instance (v : JSVal) : Decidable (isMissingField v) := by
  unfold isMissingField
  infer_instance

/-! # Supporting lemmas -/

/-! ### Round trip: `Number(String(v)) = v` -/

theorem digitVal_digitChar {d : Nat} (h : d < 10) :
    digitVal (Nat.digitChar d) = some d := by
  interval_cases d <;> rfl

theorem parseDigits_append (xs ys : List Char) (acc : Nat) :
    parseDigits (xs ++ ys) acc =
      match parseDigits xs acc with
      | some a => parseDigits ys a
      | none => none := by
  induction xs generalizing acc with
  | nil => rfl
  | cons c cs ih =>
    simp only [List.cons_append, parseDigits]
    cases digitVal c with
    | none => rfl
    | some d => exact ih _

theorem natCharsAux_ne_nil (fuel n : Nat) : natCharsAux fuel n ≠ [] := by
  cases fuel with
  | zero => simp [natCharsAux]
  | succ f =>
    rw [natCharsAux]
    split
    · simp
    · simp

theorem natChars_ne_nil (n : Nat) : natChars n ≠ [] :=
  natCharsAux_ne_nil n n

theorem parseDigits_natCharsAux (fuel : Nat) :
    ∀ n acc : Nat, n ≤ fuel →
      parseDigits (natCharsAux fuel n) acc =
        some (acc * 10 ^ (natCharsAux fuel n).length + n) := by
  induction fuel with
  | zero =>
    intro n acc hn
    interval_cases n
    have h0 : digitVal (Nat.digitChar (0 % 10)) = some 0 := by decide
    have h1 : digitVal (Nat.digitChar 0) = some 0 := by decide
    simp [natCharsAux, parseDigits, h0, h1, pow_one]
  | succ f ih =>
    intro n acc hn
    rw [natCharsAux]
    split
    · next h =>
      simp [parseDigits, digitVal_digitChar h]
    · next h =>
      have hd : n / 10 ≤ f := by omega
      rw [parseDigits_append, ih (n / 10) acc hd]
      have hm : n % 10 < 10 := Nat.mod_lt _ (by omega)
      simp only [parseDigits, digitVal_digitChar hm, List.length_append,
        List.length_singleton]
      rw [pow_succ]
      congr 1
      calc (acc * 10 ^ (natCharsAux f (n / 10)).length + n / 10) * 10 + n % 10
          = acc * (10 ^ (natCharsAux f (n / 10)).length * 10) +
              (n / 10 * 10 + n % 10) := by ring
        _ = acc * (10 ^ (natCharsAux f (n / 10)).length * 10) + n := by
            congr 1
            omega

theorem parseNatChars_natChars (n : Nat) :
    parseNatChars (natChars n) = some n := by
  have hne := natChars_ne_nil n
  unfold parseNatChars
  match hcs : natChars n with
  | [] => exact absurd hcs hne
  | c :: cs =>
    have hp := parseDigits_natCharsAux n n 0 (Nat.le_refl n)
    rw [show natCharsAux n n = natChars n from rfl, hcs] at hp
    simpa using hp

theorem natCharsAux_all_digits (fuel : Nat) :
    ∀ n : Nat, ∀ x ∈ natCharsAux fuel n, digitVal x ≠ none := by
  induction fuel with
  | zero =>
    intro n x hx
    simp only [natCharsAux, List.mem_singleton] at hx
    subst hx
    rw [digitVal_digitChar (Nat.mod_lt _ (by omega))]
    simp
  | succ f ih =>
    intro n x hx
    rw [natCharsAux] at hx
    split at hx
    · next h =>
      simp only [List.mem_singleton] at hx
      subst hx
      rw [digitVal_digitChar h]
      simp
    · rcases List.mem_append.mp hx with hmem | hmem
      · exact ih (n / 10) x hmem
      · simp only [List.mem_singleton] at hmem
        subst hmem
        rw [digitVal_digitChar (Nat.mod_lt _ (by omega))]
        simp

theorem jsNumber_stringOfInt (v : Int) : jsNumber (stringOfInt v) = some v := by
  unfold stringOfInt jsNumber
  by_cases hv : v < 0
  · simp only [hv, if_pos]
    rw [show ("-".data ++ natChars (-v).toNat).asString.data =
        "-".data ++ natChars (-v).toNat from List.toList_asString _]
    simp only [List.cons_append, List.nil_append]
    rw [parseNatChars_natChars]
    simp only [Option.map_some']
    congr 1
    show -(((-v).toNat : Int)) = v
    omega
  · simp only [hv, if_neg, not_false_iff]
    rw [show (natChars v.toNat).asString.data = natChars v.toNat from
      List.toList_asString _]
    have hne := natChars_ne_nil v.toNat
    match hcs : natChars v.toNat with
    | [] => exact absurd hcs hne
    | c :: cs =>
      have hfirst : c ≠ '-' := by
        intro hc
        have hd := natCharsAux_all_digits v.toNat v.toNat c
          (by rw [show natCharsAux v.toNat v.toNat = natChars v.toNat from rfl,
                hcs]; exact List.mem_cons_self _ _)
        subst hc
        exact hd rfl
      split
      · next heq =>
        rw [List.cons.injEq] at heq
        exact absurd heq.1 hfirst
      · rw [← hcs, parseNatChars_natChars]
        simp only [Option.map_some']
        congr 1
        show ((v.toNat : Int)) = v
        omega

/-! ### Basic bag lemmas -/

theorem getParam_deleteParam_self (bag : Params) (k : String) :
    getParam (deleteParam bag k) k = none := by
  induction bag with
  | nil => rfl
  | cons p ps ih =>
    by_cases hp : p.1 = k
    · simpa [deleteParam, hp] using ih
    · simpa [deleteParam, getParam, hp] using ih

theorem getParam_deleteParam_ne (bag : Params) (k k2 : String) (h : k2 ≠ k) :
    getParam (deleteParam bag k) k2 = getParam bag k2 := by
  induction bag with
  | nil => rfl
  | cons p ps ih =>
    by_cases hp : p.1 = k
    · have hp2 : p.1 ≠ k2 := by rw [hp]; exact fun hh => h hh.symm
      simpa [deleteParam, getParam, hp, hp2, Ne.symm h] using ih
    · by_cases hq : p.1 = k2
      · simp [deleteParam, getParam, hp, hq, h]
      · simpa [deleteParam, getParam, hp, hq, h] using ih

theorem getParam_append (b1 b2 : Params) (k : String) :
    getParam (b1 ++ b2) k =
      match getParam b1 k with
      | some v => some v
      | none => getParam b2 k := by
  induction b1 with
  | nil => rfl
  | cons p ps ih =>
    by_cases hp : p.1 = k
    · simp [getParam, hp]
    · simpa [getParam, hp] using ih

theorem getParam_setParam_self (bag : Params) (k v : String) :
    getParam (setParam bag k v) k = some v := by
  rw [setParam, getParam_append, getParam_deleteParam_self]
  simp [getParam]

theorem getParam_setParam_ne (bag : Params) (k k2 v : String) (h : k2 ≠ k) :
    getParam (setParam bag k v) k2 = getParam bag k2 := by
  rw [setParam, getParam_append, getParam_deleteParam_ne bag k k2 h]
  have hone : getParam [(k, v)] k2 = none := by
    simp [getParam]
    exact fun hh => h hh.symm
  cases hg : getParam bag k2 with
  | none => simpa [hg] using hone
  | some w => simp [hg]


theorem hInv_init : HInv initHeader := by
  refine ⟨?_, ?_, ?_⟩
  · intro t ht
    cases ht
    exact ⟨rfl, rfl, rfl⟩
  · intro f hf
    cases hf
  · intro _ ht
    cases ht

theorem hInv_rerunEffect (s : HeaderState)
    (hpend : ∀ f ∈ s.pending, f.epoch ≤ s.epoch ∧ f.q ≠ "") :
    HInv (rerunEffect s) := by
  refine ⟨?_, ?_, ?_⟩
  · intro t ht
    cases ht
    exact ⟨rfl, rfl, rfl⟩
  · intro f hf
    simp only [rerunEffect] at hf ⊢
    obtain ⟨h1, h2⟩ := hpend f hf
    exact ⟨by omega, h2, fun he => absurd he (by omega)⟩
  · intro _ ht
    cases ht

theorem hInv_hstep (s : HeaderState) (ev : HEvent) (h : HInv s) :
    HInv (hstep s ev) := by
  obtain ⟨htimer, hpend, hempty⟩ := h
  cases ev with
  | setQuery txt =>
    show HInv (if txt = s.q then s else rerunEffect { s with q := txt })
    by_cases hq : txt = s.q
    · rw [if_pos hq]
      exact ⟨htimer, hpend, hempty⟩
    · rw [if_neg hq]
      exact hInv_rerunEffect _ (fun f hf => ⟨(hpend f hf).1, (hpend f hf).2.1⟩)
  | setDim d =>
    show HInv (if d = s.dim then s else rerunEffect { s with dim := d })
    by_cases hd : d = s.dim
    · rw [if_pos hd]
      exact ⟨htimer, hpend, hempty⟩
    · rw [if_neg hd]
      exact hInv_rerunEffect _ (fun f hf => ⟨(hpend f hf).1, (hpend f hf).2.1⟩)
  | timerFire =>
    simp only [hstep]
    cases ht : s.timer with
    | none => exact ⟨htimer, hpend, hempty⟩
    | some t =>
      obtain ⟨hte, htq, htd⟩ := htimer t ht
      show HInv (if t.q = "" then
        { s with timer := none, suggests := [], menuOpen := false }
      else
        { s with timer := none, pending := s.pending ++ [t] })
      by_cases hq : t.q = ""
      · rw [if_pos hq]
        refine ⟨fun t2 ht2 => Option.noConfusion ht2, hpend, fun _ _ => ⟨rfl, rfl⟩⟩
      · rw [if_neg hq]
        refine ⟨fun t2 ht2 => Option.noConfusion ht2, ?_, ?_⟩
        · intro f hf
          rcases List.mem_append.mp hf with hf2 | hf2
          · exact hpend f hf2
          · simp only [List.mem_singleton] at hf2
            subst hf2
            exact ⟨Nat.le_of_eq hte, hq, fun _ => ⟨htq, htd⟩⟩
        · intro hq2 _
          exact absurd (htq.trans hq2) hq
  | resolve i res =>
    simp only [hstep]
    cases hg : s.pending.get? i with
    | none => exact ⟨htimer, hpend, hempty⟩
    | some f =>
      have hmem : f ∈ s.pending := List.get?_mem hg
      show HInv (if f.epoch = s.epoch then
        { s with
          pending := s.pending.eraseIdx i
          suggests := res
          menuOpen := decide (0 < res.length) }
      else
        { s with pending := s.pending.eraseIdx i })
      by_cases he : f.epoch = s.epoch
      · rw [if_pos he]
        refine ⟨htimer, ?_, ?_⟩
        · intro g hg2
          exact hpend g (List.mem_of_mem_eraseIdx hg2)
        · intro hq2 _
          exact absurd (((hpend f hmem).2.2 he).1.trans hq2) (hpend f hmem).2.1
      · rw [if_neg he]
        refine ⟨htimer, ?_, hempty⟩
        intro g hg2
        exact hpend g (List.mem_of_mem_eraseIdx hg2)
  | fail i =>
    refine ⟨htimer, ?_, hempty⟩
    intro g hg2
    exact hpend g (List.mem_of_mem_eraseIdx hg2)
  | select sug =>
    simp only [hstep]
    by_cases hq : s.q = ""
    · rw [if_pos hq]
      exact ⟨htimer, hpend, fun _ _ => ⟨rfl, rfl⟩⟩
    · rw [if_neg hq]
      exact hInv_rerunEffect _ (fun f hf => ⟨(hpend f hf).1, (hpend f hf).2.1⟩)
  | clickOutside =>
    exact ⟨htimer, hpend, fun hq ht => ⟨(hempty hq ht).1, rfl⟩⟩

theorem hInv_hrun (s : HeaderState) (evs : List HEvent) (h : HInv s) :
    HInv (hrun s evs) := by
  induction evs generalizing s with
  | nil => exact h
  | cons ev evs ih => exact ih _ (hInv_hstep s ev h)



theorem stringOfInt_ne_empty (v : Int) : stringOfInt v ≠ "" := by
  unfold stringOfInt
  split
  · intro h
    have h2 := congrArg String.toList h
    rw [List.toList_asString] at h2
    simp at h2
  · intro h
    have h2 := congrArg String.toList h
    rw [List.toList_asString] at h2
    exact natChars_ne_nil _ (by simpa using h2)

theorem readNum_updateParam_num (bag : Params) (k : String) (d v : Int) :
    readNum (updateParam bag k (JSVal.num v)) k d = some v := by
  unfold updateParam
  rw [if_neg (by simp)]
  unfold readNum
  rw [getParam_setParam_self]
  show (if stringOfInt v = "" then some d else jsNumber (stringOfInt v)) = some v
  rw [if_neg (stringOfInt_ne_empty v)]
  exact jsNumber_stringOfInt v


/-! ### Step equations for the `Header` machine -/

theorem hstep_setQuery_same (s : HeaderState) (txt : String) (h : txt = s.q) :
    hstep s (HEvent.setQuery txt) = s := by
  show (if txt = s.q then s else rerunEffect { s with q := txt }) = s
  rw [if_pos h]

theorem hstep_setQuery_ne (s : HeaderState) (txt : String) (h : txt ≠ s.q) :
    hstep s (HEvent.setQuery txt) = rerunEffect { s with q := txt } := by
  show (if txt = s.q then s else rerunEffect { s with q := txt }) = _
  rw [if_neg h]

theorem hstep_timerFire_none (s : HeaderState) (ht : s.timer = none) :
    hstep s HEvent.timerFire = s := by
  simp only [hstep, ht]

theorem hstep_timerFire_some (s : HeaderState) (t : FetchReq)
    (ht : s.timer = some t) :
    hstep s HEvent.timerFire =
      if t.q = "" then
        { s with timer := none, suggests := [], menuOpen := false }
      else
        { s with timer := none, pending := s.pending ++ [t] } := by
  simp only [hstep, ht]

theorem hstep_resolve_some (s : HeaderState) (i : Nat) (res : List Suggestion)
    (f : FetchReq) (hf : s.pending.get? i = some f) :
    hstep s (HEvent.resolve i res) =
      if f.epoch = s.epoch then
        { s with
          pending := s.pending.eraseIdx i
          suggests := res
          menuOpen := decide (0 < res.length) }
      else
        { s with pending := s.pending.eraseIdx i } := by
  simp only [hstep, hf]

theorem hstep_select_eq (s : HeaderState) (sug : Suggestion) :
    hstep s (HEvent.select sug) =
      if s.q = "" then
        { s with
          nav := s.nav ++ [selRoute s.dim sug]
          menuOpen := false
          suggests := [] }
      else
        rerunEffect { s with
          nav := s.nav ++ [selRoute s.dim sug]
          menuOpen := false
          suggests := []
          q := "" } :=
  rfl

/-! # The claims -/

/-- C7 counterexample: the claim asserts `pageSize ≥ 1` after every
operation, but typing `0` into the page-size input stores
`Number("0" || 10) = 0`: from the initial list state the read-back page size
is `0 < 1`. -/
theorem c7_counterexample :
    limitOf (setLimitInput initListState "0").bag = some 0 ∧
    ¬ 1 ≤ (0 : Int) := by
  constructor
  · decide
  · decide

/-- C7 (amended): the `page` parameter does keep the floor `1` under the
pagination controls — `Prev` writes `Math.max(1, page - 1)` and `Next` writes
`page + 1` — so whenever the current page reads back as `p ≥ 1`, both buttons
leave a page value `≥ 1` in the URL; the page-size input, by contrast, has no
floor (see the counterexample). -/
theorem c7_page_floor (st : ListState) (p : Int)
    (hp : pageOf st.bag = some p) (h1 : 1 ≤ p) :
    pageOf (prevPage st).bag = some (max 1 (p - 1)) ∧ 1 ≤ max 1 (p - 1) ∧
    pageOf (nextPage st).bag = some (p + 1) ∧ 1 ≤ p + 1 := by
  unfold prevPage nextPage
  rw [hp]
  refine ⟨?_, le_max_left 1 (p - 1), ?_, by omega⟩
  · exact readNum_updateParam_num st.bag "page" 1 (max 1 (p - 1))
  · exact readNum_updateParam_num st.bag "page" 1 (p + 1)

/-- C7 witness: at the initial state (`page` absent, read as `1`), `Prev`
stays at page `1` and `Next` moves to page `2`. -/
theorem c7_page_floor_witness :
    pageOf (prevPage initListState).bag = some (max 1 ((1 : Int) - 1)) ∧
    1 ≤ max 1 ((1 : Int) - 1) ∧
    pageOf (nextPage initListState).bag = some ((1 : Int) + 1) ∧
    1 ≤ (1 : Int) + 1 :=
  c7_page_floor initListState 1 rfl (by decide)

/-- C8 counterexample: `formatValue` compares with `===`, so the *number*
`-1` is not caught by the `value === "-1"` test: it is returned unchanged
rather than replaced by the `"-"` glyph. -/
theorem c8_counterexample :
    formatValue (JSVal.num (-1)) = JSVal.num (-1) ∧
    JSVal.num (-1) ≠ JSVal.str "-" := by
  constructor
  · rfl
  · decide

/-- C8 (amended): `formatValue` returns the `"-"` glyph exactly on null,
undefined, the empty string and the *string* `"-1"`; every other value —
including the numeric sentinel `-1` — is rendered unchanged, and the result
is never the blank string. -/
theorem c8_format_fallback (v : JSVal) :
    (isMissingField v → formatValue v = JSVal.str "-") ∧
    (¬ isMissingField v → formatValue v = v) ∧
    (v = JSVal.num (-1) → formatValue v = JSVal.num (-1)) ∧
    formatValue v ≠ JSVal.str "" := by
  refine ⟨fun h => if_pos h, fun h => if_neg h, ?_, ?_⟩
  · intro h
    subst h
    rfl
  · by_cases h : isMissingField v
    · have hf : formatValue v = JSVal.str "-" := if_pos h
      rw [hf]
      decide
    · have hf : formatValue v = v := if_neg h
      rw [hf]
      intro he
      exact h (Or.inr (Or.inr (Or.inl he)))

/-- C8 witness: the glyph on a missing value, identity elsewhere. -/
theorem c8_format_fallback_witness :
    formatValue (JSVal.str "") = JSVal.str "-" ∧
    formatValue (JSVal.str "Goa") = JSVal.str "Goa" :=
  ⟨(c8_format_fallback (JSVal.str "")).1 (by decide),
   (c8_format_fallback (JSVal.str "Goa")).2.1 (by decide)⟩

/-- C2 counterexample: `sortBy`/`sortOrder` live in plain `useState`, not in
the URL.  Toggling the active sort column mutates `sortOrder` while the URL
bag is untouched and carries no sort key at all — contradicting "every
mutation of any of these fields is written through to the URL". -/
theorem c2_counterexample :
    (toggleSort initListState "name").sortOrder ≠ initListState.sortOrder ∧
    (toggleSort initListState "name").bag = initListState.bag ∧
    getParam (toggleSort initListState "name").bag "sortBy" = none ∧
    getParam (toggleSort initListState "name").bag "sortOrder" = none := by
  refine ⟨by decide, rfl, rfl, rfl⟩

/-- C2 (amended): the five URL-backed `ListParameters` fields — page,
pageSize, originFilter, ingredientFilter, freeText — are read-through from
the URL bag: `updateParam` is a read-modify-write that stores the new value
under its key (deleting it when empty/null so the address stays minimal),
leaves every other key unchanged, and each fetch takes those five values from
the bag reads; `sortField`/`sortDirection` however are local component state:
`toggleSort` never touches the URL bag. -/
theorem c2_url_backing (bag : Params) (key : String) (v : JSVal)
    (k2 : String) (hne : k2 ≠ key) (st : ListState) (col : String) :
    getParam (updateParam bag key v) key =
      (if v = JSVal.str "" ∨ v = JSVal.null ∨ v = JSVal.undef then none
       else some (jsString v)) ∧
    getParam (updateParam bag key v) k2 = getParam bag k2 ∧
    fetchArgs st =
      { page := pageOf st.bag
        limit := limitOf st.bag
        origin := originOf st.bag
        ingredient := ingredientOf st.bag
        q := qOf st.bag
        sortBy := st.sortBy
        sortOrder := st.sortOrder } ∧
    (toggleSort st col).bag = st.bag := by
  refine ⟨?_, ?_, rfl, ?_⟩
  · unfold updateParam
    split
    · exact getParam_deleteParam_self bag key
    · exact getParam_setParam_self bag key (jsString v)
  · unfold updateParam
    split
    · exact getParam_deleteParam_ne bag key k2 hne
    · exact getParam_setParam_ne bag key k2 (jsString v) hne
  · unfold toggleSort
    split <;> rfl

/-- C2 witness: writing the origin filter stores it, clearing removes it,
and an unrelated key is preserved. -/
theorem c2_url_backing_witness :
    getParam (updateParam [("page", "2")] "origin" (JSVal.str "Punjab"))
        "origin" =
      (if JSVal.str "Punjab" = JSVal.str "" ∨ JSVal.str "Punjab" = JSVal.null ∨
          JSVal.str "Punjab" = JSVal.undef then none
       else some (jsString (JSVal.str "Punjab"))) ∧
    getParam (updateParam [("page", "2")] "origin" (JSVal.str "Punjab"))
        "page" = getParam [("page", "2")] "page" ∧
    fetchArgs initListState =
      { page := pageOf initListState.bag
        limit := limitOf initListState.bag
        origin := originOf initListState.bag
        ingredient := ingredientOf initListState.bag
        q := qOf initListState.bag
        sortBy := initListState.sortBy
        sortOrder := initListState.sortOrder } ∧
    (toggleSort initListState "origin").bag = initListState.bag :=
  c2_url_backing [("page", "2")] "origin" (JSVal.str "Punjab") "page"
    (by decide) initListState "origin"

/-- C9: login succeeds exactly on a stored matching email/password pair; on
success the session marker `login = "true"` and the identity are persisted
(the `users` list untouched); otherwise the outcome is the
"Invalid credentials" message and the store is completely unchanged. -/
theorem c9_login_matches_store (e p : String) (st : AuthStore) :
    ((∃ u ∈ st.users, u.email = e ∧ u.password = p) →
      handleLogin e p st =
        (LoginOutcome.navigate "/dishes",
         { st with user := some e, login := some "true" })) ∧
    ((¬ ∃ u ∈ st.users, u.email = e ∧ u.password = p) →
      handleLogin e p st = (LoginOutcome.errorMsg "Invalid credentials", st)) := by
  unfold handleLogin
  cases hfind : st.users.find? (fun u => u.email == e && u.password == p) with
  | none =>
    rw [List.find?_eq_none] at hfind
    constructor
    · intro hex
      obtain ⟨u, hu, he, hp⟩ := hex
      exact absurd (by simp [he, hp]) (hfind u hu)
    · intro _
      rfl
  | some u =>
    constructor
    · intro _
      rfl
    · intro hnex
      exfalso
      apply hnex
      refine ⟨u, List.mem_of_find?_eq_some hfind, ?_⟩
      have hu := List.find?_some hfind
      simpa using hu

/-- C9 witness: with `users = [{a@x.com, p}]`, that exact pair logs in and
persists the session; a wrong password reports "Invalid credentials" and
leaves the store unchanged. -/
theorem c9_login_matches_store_witness :
    (handleLogin "a@x.com" "p"
        { login := none, user := none, users := [⟨"a@x.com", "p"⟩] } =
      (LoginOutcome.navigate "/dishes",
       { login := some "true", user := some "a@x.com",
         users := [⟨"a@x.com", "p"⟩] })) ∧
    (handleLogin "a@x.com" "wrong"
        { login := none, user := none, users := [⟨"a@x.com", "p"⟩] } =
      (LoginOutcome.errorMsg "Invalid credentials",
       { login := none, user := none, users := [⟨"a@x.com", "p"⟩] })) :=
  ⟨(c9_login_matches_store "a@x.com" "p" _).1 (by decide),
   (c9_login_matches_store "a@x.com" "wrong" _).2 (by decide)⟩

/-- C10: `clearAll` resets selection, results and the local
search-within-ingredients text in one step (a single synchronous handler),
leaving the match mode and the loaded candidate list untouched. -/
theorem c10_clear_frame (st : SuggesterState) :
    (clearAll st).selected = [] ∧ (clearAll st).results = [] ∧
    (clearAll st).search = "" ∧ (clearAll st).matchType = st.matchType ∧
    (clearAll st).options = st.options :=
  ⟨rfl, rfl, rfl, rfl, rfl⟩



/-- C1: a response belonging to a fetch whose query is no longer the current
query is discarded — resolving it leaves the suggestion set and panel
untouched — and a response that is applied (its effect instance is still
mounted) necessarily belongs to a fetch issued for the current query.  The
`mounted` flag of the issuing effect instance guards the continuation, and
that flag is cleared (epoch bumped) by the cleanup that any query change
triggers. -/
theorem c1_stale_fetch_discarded (s : HeaderState) (h : HInv s)
    (i : Nat) (f : FetchReq) (hf : s.pending.get? i = some f)
    (res : List Suggestion) :
    (f.q ≠ s.q →
      (hstep s (HEvent.resolve i res)).suggests = s.suggests ∧
      (hstep s (HEvent.resolve i res)).menuOpen = s.menuOpen) ∧
    (f.epoch = s.epoch →
      f.q = s.q ∧ (hstep s (HEvent.resolve i res)).suggests = res) := by
  obtain ⟨-, hpend, -⟩ := h
  have hmem := List.get?_mem hf
  rw [hstep_resolve_some s i res f hf]
  constructor
  · intro hq
    have he : f.epoch ≠ s.epoch := fun he => hq ((hpend f hmem).2.2 he).1
    rw [if_neg he]
    exact ⟨rfl, rfl⟩
  · intro he
    rw [if_pos he]
    exact ⟨((hpend f hmem).2.2 he).1, rfl⟩

/-- C1 witness: type `"a"`, let the debounce fire (a fetch for `"a"` goes
out), then type `"ab"` before it returns; resolving the `"a"` fetch now
changes nothing. -/
theorem c1_stale_fetch_discarded_witness :
    ((FetchReq.mk 1 "a" Dimension.name).q ≠
        (hrun initHeader [HEvent.setQuery "a", HEvent.timerFire,
          HEvent.setQuery "ab"]).q →
      (hstep (hrun initHeader [HEvent.setQuery "a", HEvent.timerFire,
          HEvent.setQuery "ab"]) (HEvent.resolve 0 [Suggestion.strval "x"])).suggests =
        (hrun initHeader [HEvent.setQuery "a", HEvent.timerFire,
          HEvent.setQuery "ab"]).suggests ∧
      (hstep (hrun initHeader [HEvent.setQuery "a", HEvent.timerFire,
          HEvent.setQuery "ab"]) (HEvent.resolve 0 [Suggestion.strval "x"])).menuOpen =
        (hrun initHeader [HEvent.setQuery "a", HEvent.timerFire,
          HEvent.setQuery "ab"]).menuOpen) ∧
    ((FetchReq.mk 1 "a" Dimension.name).epoch =
        (hrun initHeader [HEvent.setQuery "a", HEvent.timerFire,
          HEvent.setQuery "ab"]).epoch →
      (FetchReq.mk 1 "a" Dimension.name).q =
        (hrun initHeader [HEvent.setQuery "a", HEvent.timerFire,
          HEvent.setQuery "ab"]).q ∧
      (hstep (hrun initHeader [HEvent.setQuery "a", HEvent.timerFire,
          HEvent.setQuery "ab"]) (HEvent.resolve 0 [Suggestion.strval "x"])).suggests =
        [Suggestion.strval "x"]) :=
  c1_stale_fetch_discarded
    (hrun initHeader [HEvent.setQuery "a", HEvent.timerFire, HEvent.setQuery "ab"])
    (hInv_hrun initHeader _ hInv_init) 0 (FetchReq.mk 1 "a" Dimension.name)
    (by decide) [Suggestion.strval "x"]

/-- C3 counterexample: the clear for an empty query happens inside the
debounced `doFetch`, not synchronously in `setQuery`.  With `"Dosa"` showing
(from a resolved fetch for `"a"`), setting the query to `""` leaves the
suggestion set non-empty and the panel open until the 250 ms timer fires —
refuting "synchronously clears the SuggestionSet and closes the panel". -/
theorem c3_counterexample :
    (hstep (hrun initHeader [HEvent.setQuery "a", HEvent.timerFire,
        HEvent.resolve 0 [Suggestion.strval "Dosa"]])
      (HEvent.setQuery "")).suggests = [Suggestion.strval "Dosa"] ∧
    (hstep (hrun initHeader [HEvent.setQuery "a", HEvent.timerFire,
        HEvent.resolve 0 [Suggestion.strval "Dosa"]])
      (HEvent.setQuery "")).menuOpen = true := by
  constructor
  · decide
  · decide

/-- C3 (amended): setting the query to the empty string schedules the clear
behind the 250 ms debounce: no suggestion fetch is ever issued for the empty
query (the pending set is unchanged both immediately and when the timer
fires), and once the debounce timer fires the suggestion set is empty and the
panel closed. -/
theorem c3_empty_query_clears_after_debounce (s : HeaderState) (h : HInv s) :
    (hstep s (HEvent.setQuery "")).pending = s.pending ∧
    (hstep (hstep s (HEvent.setQuery "")) HEvent.timerFire).suggests = [] ∧
    (hstep (hstep s (HEvent.setQuery "")) HEvent.timerFire).menuOpen = false ∧
    (hstep (hstep s (HEvent.setQuery "")) HEvent.timerFire).pending = s.pending := by
  obtain ⟨htimer, -, hempty⟩ := h
  by_cases hq : s.q = ""
  · rw [hstep_setQuery_same s "" hq.symm]
    cases ht : s.timer with
    | none =>
      rw [hstep_timerFire_none s ht]
      obtain ⟨h1, h2⟩ := hempty hq ht
      exact ⟨rfl, h1, h2, rfl⟩
    | some t =>
      rw [hstep_timerFire_some s t ht]
      rw [if_pos ((htimer t ht).2.1.trans hq)]
      exact ⟨rfl, rfl, rfl, rfl⟩
  · rw [hstep_setQuery_ne s "" (fun he => hq he.symm)]
    rw [hstep_timerFire_some (rerunEffect { s with q := "" })
      { epoch := s.epoch + 1, q := "", dim := s.dim } rfl]
    rw [if_pos rfl]
    exact ⟨rfl, rfl, rfl, rfl⟩

/-- C3 witness: the amended behaviour on the counterexample state — after
the timer fires the stale `"Dosa"` suggestion is gone, the panel closed, and
no fetch was issued. -/
theorem c3_empty_query_clears_after_debounce_witness :
    (hstep (hrun initHeader [HEvent.setQuery "a", HEvent.timerFire,
        HEvent.resolve 0 [Suggestion.strval "Dosa"]])
      (HEvent.setQuery "")).pending =
      (hrun initHeader [HEvent.setQuery "a", HEvent.timerFire,
        HEvent.resolve 0 [Suggestion.strval "Dosa"]]).pending ∧
    (hstep (hstep (hrun initHeader [HEvent.setQuery "a", HEvent.timerFire,
        HEvent.resolve 0 [Suggestion.strval "Dosa"]])
      (HEvent.setQuery "")) HEvent.timerFire).suggests = [] ∧
    (hstep (hstep (hrun initHeader [HEvent.setQuery "a", HEvent.timerFire,
        HEvent.resolve 0 [Suggestion.strval "Dosa"]])
      (HEvent.setQuery "")) HEvent.timerFire).menuOpen = false ∧
    (hstep (hstep (hrun initHeader [HEvent.setQuery "a", HEvent.timerFire,
        HEvent.resolve 0 [Suggestion.strval "Dosa"]])
      (HEvent.setQuery "")) HEvent.timerFire).pending =
      (hrun initHeader [HEvent.setQuery "a", HEvent.timerFire,
        HEvent.resolve 0 [Suggestion.strval "Dosa"]]).pending :=
  c3_empty_query_clears_after_debounce
    (hrun initHeader [HEvent.setQuery "a", HEvent.timerFire,
      HEvent.resolve 0 [Suggestion.strval "Dosa"]])
    (hInv_hrun initHeader _ hInv_init)

/-- C4 counterexample: the `catch` branch of `doFetch` only logs.  With
`"Dosa"` on screen from an earlier query and a fetch for `"ab"` in flight,
the fetch failing leaves the panel open with the stale suggestion — refuting
"after the error the SuggestionSet is empty and the suggestion panel is
closed". -/
theorem c4_counterexample :
    (hstep (hrun initHeader [HEvent.setQuery "a", HEvent.timerFire,
        HEvent.resolve 0 [Suggestion.strval "Dosa"], HEvent.setQuery "ab",
        HEvent.timerFire]) (HEvent.fail 0)).suggests =
      [Suggestion.strval "Dosa"] ∧
    (hstep (hrun initHeader [HEvent.setQuery "a", HEvent.timerFire,
        HEvent.resolve 0 [Suggestion.strval "Dosa"], HEvent.setQuery "ab",
        HEvent.timerFire]) (HEvent.fail 0)).menuOpen = true := by
  constructor
  · decide
  · decide

/-- C4 (amended): a fetch failure is swallowed — it is logged, never
propagated (`hstep` is total on `fail`), and the component state is left
exactly as it was: query, suggestion set, panel, timer and navigation are
all unchanged; only the failed request leaves the in-flight set.  In
particular the panel may remain open showing the previous suggestions. -/
theorem c4_error_swallowed (s : HeaderState) (i : Nat) :
    (hstep s (HEvent.fail i)).suggests = s.suggests ∧
    (hstep s (HEvent.fail i)).menuOpen = s.menuOpen ∧
    (hstep s (HEvent.fail i)).q = s.q ∧
    (hstep s (HEvent.fail i)).timer = s.timer ∧
    (hstep s (HEvent.fail i)).nav = s.nav ∧
    (hstep s (HEvent.fail i)).pending = s.pending.eraseIdx i :=
  ⟨rfl, rfl, rfl, rfl, rfl, rfl⟩

/-- C5 counterexample: with search dimension `name`, selecting the id-less
suggestion `"Dosa"` navigates to `/?name=Dosa` — but `name` is not a
`ListParameters` field: the list page's freeText (`q`), origin and ingredient
reads of that address are all empty, so no ListParameter was set for the
dimension. -/
theorem c5_counterexample :
    (hstep initHeader (HEvent.select (Suggestion.strval "Dosa"))).nav =
      [Route.list [("name", "Dosa")]] ∧
    qOf [("name", "Dosa")] = "" ∧
    originOf [("name", "Dosa")] = "" ∧
    ingredientOf [("name", "Dosa")] = "" := by
  refine ⟨by decide, rfl, rfl, rfl⟩

/-- C5 (amended): after any selection the panel is closed, the suggestion
set cleared and the query text cleared; a suggestion with a truthy `id`
navigates to its detail route; one without an id navigates to the list route
carrying the single parameter named after the current dimension — which is
the matching `ListParameters` field for the `origin` and `ingredient`
dimensions, while for the `name` and `state` dimensions the parameter is one
the list page does not read (its origin/ingredient/freeText reads of the
produced address stay empty). -/
theorem c5_select_behaviour (s : HeaderState) (sug : Suggestion) :
    (hstep s (HEvent.select sug)).menuOpen = false ∧
    (hstep s (HEvent.select sug)).suggests = [] ∧
    (hstep s (HEvent.select sug)).q = "" ∧
    (truthyId sug = true →
      (hstep s (HEvent.select sug)).nav = s.nav ++ [Route.detail (idString sug)]) ∧
    (truthyId sug = false →
      (hstep s (HEvent.select sug)).nav =
        s.nav ++ [Route.list (selectBag s.dim sug)] ∧
      (s.dim = Dimension.origin →
        originOf (selectBag s.dim sug) = suggString sug) ∧
      (s.dim = Dimension.ingredient →
        ingredientOf (selectBag s.dim sug) = suggString sug) ∧
      (s.dim = Dimension.name ∨ s.dim = Dimension.state →
        originOf (selectBag s.dim sug) = "" ∧
        ingredientOf (selectBag s.dim sug) = "" ∧
        qOf (selectBag s.dim sug) = "")) := by
  have hroute : (hstep s (HEvent.select sug)).nav = s.nav ++ [selRoute s.dim sug] := by
    rw [hstep_select_eq]
    split
    · rfl
    · rfl
  have hbase : (hstep s (HEvent.select sug)).menuOpen = false ∧
      (hstep s (HEvent.select sug)).suggests = [] ∧
      (hstep s (HEvent.select sug)).q = "" := by
    rw [hstep_select_eq]
    by_cases hq : s.q = ""
    · rw [if_pos hq]
      exact ⟨rfl, rfl, hq⟩
    · rw [if_neg hq]
      exact ⟨rfl, rfl, rfl⟩
  refine ⟨hbase.1, hbase.2.1, hbase.2.2, ?_, ?_⟩
  · intro hid
    rw [hroute]
    unfold selRoute
    rw [if_pos hid]
  · intro hid
    refine ⟨by rw [hroute]; unfold selRoute; rw [if_neg (by rw [hid]; decide)], ?_, ?_, ?_⟩
    · intro hd
      rw [hd]
      rfl
    · intro hd
      rw [hd]
      rfl
    · intro hd
      cases hd with
      | inl hd => rw [hd]; exact ⟨rfl, rfl, rfl⟩
      | inr hd => rw [hd]; exact ⟨rfl, rfl, rfl⟩

/-- C5 witness: on the `origin` dimension, selecting the id-less `"Goa"`
closes the panel, clears everything, and navigates to a list address whose
origin filter is `"Goa"`. -/
theorem c5_select_behaviour_witness :
    (hstep (hrun initHeader [HEvent.setDim Dimension.origin])
        (HEvent.select (Suggestion.strval "Goa"))).menuOpen = false ∧
    (hstep (hrun initHeader [HEvent.setDim Dimension.origin])
        (HEvent.select (Suggestion.strval "Goa"))).suggests = [] ∧
    (hstep (hrun initHeader [HEvent.setDim Dimension.origin])
        (HEvent.select (Suggestion.strval "Goa"))).q = "" ∧
    (truthyId (Suggestion.strval "Goa") = true →
      (hstep (hrun initHeader [HEvent.setDim Dimension.origin])
          (HEvent.select (Suggestion.strval "Goa"))).nav =
        (hrun initHeader [HEvent.setDim Dimension.origin]).nav ++
          [Route.detail (idString (Suggestion.strval "Goa"))]) ∧
    (truthyId (Suggestion.strval "Goa") = false →
      (hstep (hrun initHeader [HEvent.setDim Dimension.origin])
          (HEvent.select (Suggestion.strval "Goa"))).nav =
        (hrun initHeader [HEvent.setDim Dimension.origin]).nav ++
          [Route.list (selectBag
            (hrun initHeader [HEvent.setDim Dimension.origin]).dim
            (Suggestion.strval "Goa"))] ∧
      ((hrun initHeader [HEvent.setDim Dimension.origin]).dim = Dimension.origin →
        originOf (selectBag
            (hrun initHeader [HEvent.setDim Dimension.origin]).dim
            (Suggestion.strval "Goa")) = suggString (Suggestion.strval "Goa")) ∧
      ((hrun initHeader [HEvent.setDim Dimension.origin]).dim =
          Dimension.ingredient →
        ingredientOf (selectBag
            (hrun initHeader [HEvent.setDim Dimension.origin]).dim
            (Suggestion.strval "Goa")) = suggString (Suggestion.strval "Goa")) ∧
      ((hrun initHeader [HEvent.setDim Dimension.origin]).dim = Dimension.name ∨
          (hrun initHeader [HEvent.setDim Dimension.origin]).dim =
            Dimension.state →
        originOf (selectBag
            (hrun initHeader [HEvent.setDim Dimension.origin]).dim
            (Suggestion.strval "Goa")) = "" ∧
        ingredientOf (selectBag
            (hrun initHeader [HEvent.setDim Dimension.origin]).dim
            (Suggestion.strval "Goa")) = "" ∧
        qOf (selectBag
            (hrun initHeader [HEvent.setDim Dimension.origin]).dim
            (Suggestion.strval "Goa")) = "")) :=
  c5_select_behaviour (hrun initHeader [HEvent.setDim Dimension.origin])
    (Suggestion.strval "Goa")



/-- A burst of keystrokes, each arriving inside the previous one's debounce
window (no `timerFire` in between): every keystroke cancels the pending
timer and restarts it for its own value, so after the burst the in-flight
set is untouched and a single timer is pending, holding the final value. -/
theorem debounce_burst (qs : List String) :
    ∀ s : HeaderState, ∀ hne : qs ≠ [],
      List.Chain' (fun a b => a ≠ b) (s.q :: qs) →
      (hrun s (qs.map HEvent.setQuery)).pending = s.pending ∧
      (hrun s (qs.map HEvent.setQuery)).dim = s.dim ∧
      (hrun s (qs.map HEvent.setQuery)).q = qs.getLast hne ∧
      (hrun s (qs.map HEvent.setQuery)).timer =
        some { epoch := (hrun s (qs.map HEvent.setQuery)).epoch
               q := qs.getLast hne
               dim := s.dim } := by
  induction qs with
  | nil => intro s hne _; exact absurd rfl hne
  | cons q0 rest ih =>
    intro s hne hchain
    have hq0 : q0 ≠ s.q := by
      have hc := List.chain'_cons.mp hchain
      exact fun he => hc.1 he.symm
    have hs1 : hstep s (HEvent.setQuery q0) = rerunEffect { s with q := q0 } :=
      hstep_setQuery_ne s q0 hq0
    cases rest with
    | nil =>
      have h1 : hrun s (List.map HEvent.setQuery [q0]) =
          rerunEffect { s with q := q0 } := by
        simp only [List.map, hrun, List.foldl]
        exact hs1
      have h2 : [q0].getLast hne = q0 := rfl
      rw [h1, h2]
      exact ⟨rfl, rfl, rfl, rfl⟩
    | cons q1 rest2 =>
      have hne2 : q1 :: rest2 ≠ [] := List.cons_ne_nil q1 rest2
      have hchain2 : List.Chain'
          (fun a b => a ≠ b)
          ((rerunEffect { s with q := q0 }).q :: q1 :: rest2) :=
        (List.chain'_cons.mp hchain).2
      have hlast : (q0 :: q1 :: rest2).getLast hne =
          (q1 :: rest2).getLast hne2 :=
        List.getLast_cons hne2
      have hfold : hrun s (List.map HEvent.setQuery (q0 :: q1 :: rest2)) =
          hrun (rerunEffect { s with q := q0 })
            (List.map HEvent.setQuery (q1 :: rest2)) := by
        simp only [List.map, hrun, List.foldl]
        rw [hs1]
      rw [hfold, hlast]
      exact ih (rerunEffect { s with q := q0 }) hne2 hchain2

/-- C6 counterexample: the claim promises *exactly one* fetch for every
rapid update burst, using the final value; but for the burst
`"a"`, `""` (clearing the box inside the window) the code issues no fetch at
all — when the quiet period elapses the timer just clears the panel, and the
in-flight set stays empty. -/
theorem c6_counterexample :
    (hrun initHeader [HEvent.setQuery "a", HEvent.setQuery ""]).pending = [] ∧
    (hstep (hrun initHeader [HEvent.setQuery "a", HEvent.setQuery ""])
      HEvent.timerFire).pending = [] ∧
    (hstep (hrun initHeader [HEvent.setQuery "a", HEvent.setQuery ""])
      HEvent.timerFire).timer = none := by
  refine ⟨by decide, by decide, by decide⟩

/-- C6 (amended): for a burst of query updates each arriving inside the
250 ms window (consecutive values distinct, none equal to its predecessor),
no fetch is issued during the burst, each update restarts the timer for its
own value, and — provided the final value is nonempty — when the quiet
period elapses exactly one fetch is issued, for the final value of the burst
(an empty final value instead issues no fetch and clears the panel, cf. C3). -/
theorem c6_debounce_single_fetch (s : HeaderState) (qs : List String)
    (hne : qs ≠ [])
    (hchain : List.Chain' (fun a b => a ≠ b) (s.q :: qs))
    (hlast : qs.getLast hne ≠ "") :
    (hrun s (qs.map HEvent.setQuery)).pending = s.pending ∧
    (hrun s (qs.map HEvent.setQuery)).timer =
      some { epoch := (hrun s (qs.map HEvent.setQuery)).epoch
             q := qs.getLast hne
             dim := s.dim } ∧
    (hstep (hrun s (qs.map HEvent.setQuery)) HEvent.timerFire).pending =
      s.pending ++ [{ epoch := (hrun s (qs.map HEvent.setQuery)).epoch
                      q := qs.getLast hne
                      dim := s.dim }] ∧
    (hstep (hrun s (qs.map HEvent.setQuery)) HEvent.timerFire).timer = none := by
  obtain ⟨hpend, hdim, hq, htimer⟩ := debounce_burst qs s hne hchain
  refine ⟨hpend, htimer, ?_, ?_⟩
  · rw [hstep_timerFire_some _ _ htimer, if_neg hlast]
    rw [hpend]
  · rw [hstep_timerFire_some _ _ htimer, if_neg hlast]

/-- C6 witness: the burst `"a"`, `"ab"` from the mount state issues exactly
one fetch, for `"ab"`, once the timer fires. -/
theorem c6_debounce_single_fetch_witness :
    (hrun initHeader
        (["a", "ab"].map HEvent.setQuery)).pending = initHeader.pending ∧
    (hrun initHeader (["a", "ab"].map HEvent.setQuery)).timer =
      some { epoch := (hrun initHeader
               (["a", "ab"].map HEvent.setQuery)).epoch
             q := ["a", "ab"].getLast (by decide)
             dim := initHeader.dim } ∧
    (hstep (hrun initHeader (["a", "ab"].map HEvent.setQuery))
        HEvent.timerFire).pending =
      initHeader.pending ++
        [{ epoch := (hrun initHeader (["a", "ab"].map HEvent.setQuery)).epoch
           q := ["a", "ab"].getLast (by decide)
           dim := initHeader.dim }] ∧
    (hstep (hrun initHeader (["a", "ab"].map HEvent.setQuery))
        HEvent.timerFire).timer = none :=
  c6_debounce_single_fetch initHeader ["a", "ab"] (by decide)
    (List.chain'_cons.mpr ⟨by decide,
      List.chain'_cons.mpr ⟨by decide, List.chain'_singleton _⟩⟩)
    (by decide)


end Cuisine
